import Mathlib

/-!
Verification of the session-registry / focus-coordination core of
`src/terminal.js` (the `Terminal` class of the terminal package).

The JavaScript code is shallowly embedded: the registry `Set` becomes an
insertion-ordered `List`, JS strings become `String`, asynchronous calls
become explicit outcome parameters and event traces, and methods with
side effects return explicit effect lists.  Collaborators that live in
files not included here (`src/model.js`, `src/element.js`, the `uuid`
library, the Atom workspace) are modelled from the specification and
marked as such in their doc comments.
-/

/-- `TERMINAL_BASE_URI` from `src/terminal.js` line 10: the uri scheme of
terminal items. -/
def TERMINAL_BASE_URI : String := "terminal://"

/-- A terminal session item.  `uri` is the opaque address; `isActive` is the
flag recomputed by the registry.  Modelled from the spec: the `TerminalModel`
class itself lives in `src/model.js`, which is not part of the sources here;
only the two fields the registry logic reads are kept. -/
structure TerminalModel where
  uri : String
  isActive : Bool
deriving DecidableEq, Repr

/-- A freshly constructed terminal item bound to `uri`.  Modelled from the
spec: a new Session starts inactive (`isActive` is recomputed by the
Registry, never set at construction). -/
def mkTerminalModel (uri : String) : TerminalModel :=
  { uri := uri, isActive := false }

namespace Terminal

/-- `Terminal.getActiveTerminal` (`src/terminal.js` lines 162-165): copy the
registry set into an array and `find` the first terminal whose
`isActiveTerminal()` is true.  `isActiveTerminal` is modelled from the spec
as reading the `isActive` flag. -/
def getActiveTerminal (terminalsSet : List TerminalModel) : Option TerminalModel :=
  terminalsSet.find? (fun t => t.isActive)

/-- `Terminal.generateNewUri` (`src/terminal.js` lines 171-173):
`TERMINAL_BASE_URI + uuidv4() + '/'`.  The `uuid` library is an external
collaborator; the freshly generated random token is the argument. -/
def generateNewUri (token : String) : String :=
  TERMINAL_BASE_URI ++ token ++ "/"

/-- JavaScript `String.prototype.startsWith`: the receiver begins with the
argument, i.e. the argument's characters are a prefix of the receiver's. -/
def jsStartsWith (s p : String) : Bool :=
  List.isPrefixOf p.data s.data

/-- The `atom.workspace.addOpener` callback (`src/terminal.js` lines 29-37):
if the uri starts with `TERMINAL_BASE_URI`, construct and return a new
`TerminalModel` bound to that uri; otherwise return nothing (the request is
not recognized and no item is created). -/
def addOpener (uri : String) : Option TerminalModel :=
  if jsStartsWith uri TERMINAL_BASE_URI then some (mkTerminalModel uri) else none

/-- `Terminal.deserializeTerminalModel` (`src/terminal.js` lines 136-143):
when the `allowRelaunchingTerminalsOnStartup` config is set, build a new
`TerminalModel` bound to the serialized uri; otherwise return nothing. -/
def deserializeTerminalModel (allowRelaunchingTerminalsOnStartup : Bool)
    (serializedUri : String) : Option TerminalModel :=
  if allowRelaunchingTerminalsOnStartup then some (mkTerminalModel serializedUri)
  else none

/-- A workspace pane item as the container observers see it: either a
terminal item (identified by its uri) or any other kind of item. -/
inductive PaneItem
  | terminalItem (uri : String)
  | otherItem
deriving DecidableEq, Repr

/-- The focus-relevant state of one container (the center workspace or one
of the three docks): whether it is currently visible and which item, if any,
is the focused (active) item inside it. -/
structure ContainerState where
  visible : Bool
  activeItem : Option PaneItem
deriving DecidableEq, Repr

/-- The focus-relevant state of the fixed set of tracked containers. -/
structure FocusEnv where
  center : ContainerState
  leftDock : ContainerState
  rightDock : ContainerState
  bottomDock : ContainerState
deriving DecidableEq, Repr

/-- The uri of the terminal focused in a container: defined when the
container is visible and its active item is a terminal item. -/
def focusedTerminal (c : ContainerState) : Option String :=
  if c.visible then
    match c.activeItem with
    | some (PaneItem.terminalItem u) => some u
    | _ => none
  else none

/-- Modelled from the spec: the fixed, deterministic priority order in which
containers are enumerated — center workspace first, then left dock, then
right dock, then bottom dock. -/
def containersInPriority (env : FocusEnv) : List ContainerState :=
  [env.center, env.leftDock, env.rightDock, env.bottomDock]

/-- The uri of the terminal to mark active: the focused terminal of the
highest-priority container currently hosting one. -/
def activeTarget (env : FocusEnv) : Option String :=
  (containersInPriority env).findSome? focusedTerminal

/-- Modelled from the spec: `TerminalModel.recalculateActive` lives in
`src/model.js`, which is not among the sources here.  Given the current
container states, mark active exactly the session whose uri is the active
target, and mark every other session inactive. -/
def recalculateActive (env : FocusEnv) (terminalsSet : List TerminalModel) :
    List TerminalModel :=
  terminalsSet.map (fun s => { s with isActive := decide (activeTarget env = some s.uri) })

/-- A registry operation.  `register`/`unregister` are modelled from the
spec (insertion on Session creation — a no-op when a session with that uri
is already present — and removal on Session exit); `recompute` is the
active-session recomputation triggered by container signals. -/
inductive RegistryOp
  | register (uri : String)
  | unregister (uri : String)
  | recompute (env : FocusEnv)

/-- Apply one registry operation to the insertion-ordered registry set. -/
def applyOp (ss : List TerminalModel) : RegistryOp → List TerminalModel
  | RegistryOp.register u =>
    if ss.any (fun s => s.uri == u) then ss else ss ++ [mkTerminalModel u]
  | RegistryOp.unregister u => ss.filter (fun s => s.uri != u)
  | RegistryOp.recompute env => recalculateActive env ss

/-- Run a sequence of registry operations from the empty registry. -/
def runOps (ops : List RegistryOp) : List TerminalModel :=
  ops.foldl applyOp []

/-- The number of sessions currently flagged active. -/
def activeCount (ss : List TerminalModel) : Nat :=
  ss.countP (fun s => s.isActive)

/-- The session uris in registry (insertion) order. -/
def uris (ss : List TerminalModel) : List String :=
  ss.map (fun s => s.uri)

/-- The registry invariant: uris are pairwise distinct and at most one
session is flagged active. -/
def RegInv (ss : List TerminalModel) : Prop :=
  (uris ss).Nodup ∧ activeCount ss ≤ 1

/-- A container that is currently hidden. -/
def hiddenContainer : ContainerState :=
  { visible := false, activeItem := none }

/-- A visible container whose focused item is the terminal at `u`. -/
def focusedContainer (u : String) : ContainerState :=
  { visible := true, activeItem := some (PaneItem.terminalItem u) }

/-- Concrete container states: only the center workspace is visible, with
the terminal at uri "a" focused. -/
def envCenterA : FocusEnv :=
  { center := focusedContainer "a", leftDock := hiddenContainer,
    rightDock := hiddenContainer, bottomDock := hiddenContainer }

/-- Concrete container states: the center workspace and the bottom dock are
both visible, each with a focused terminal ("c" and "b" respectively). -/
def envCenterBottom : FocusEnv :=
  { center := focusedContainer "c", leftDock := hiddenContainer,
    rightDock := hiddenContainer, bottomDock := focusedContainer "b" }

/-- A concrete operation sequence: register the session at "a", then
recompute with the center workspace focused on it. -/
def opsCenterA : List RegistryOp :=
  [RegistryOp.register "a", RegistryOp.recompute envCenterA]

/-- Options passed to `atom.workspace.open` as far as the default-placement
logic reads and writes them: the optional `pane` key (a pane handle,
identified here by an id) and the optional `split` key.  A `none` field
models the absence of the key on the JavaScript options object. -/
structure OpenOptions where
  pane : Option String
  split : Option String
deriving DecidableEq, Repr

/-- The active pane, if any, of the center workspace and of each dock, as
returned by the workspace collaborator's `getActivePane()` calls. -/
structure PaneEnv where
  workspaceActivePane : Option String
  bottomDockActivePane : Option String
  leftDockActivePane : Option String
  rightDockActivePane : Option String
deriving DecidableEq, Repr

/-- A pane environment with no active pane anywhere. -/
def paneEnvEmpty : PaneEnv :=
  { workspaceActivePane := none, bottomDockActivePane := none,
    leftDockActivePane := none, rightDockActivePane := none }

/-- `Terminal.addDefaultPosition` (`src/terminal.js` lines 219-272): switch
on the configured `terminal.defaultOpenPosition`; for `Center` and the dock
positions set `options.pane` to the designated container's active pane when
that pane exists and the caller supplied no `pane` key; for the split
positions set `options.split` when the caller supplied no `split` key; for
any other configured value return the options untouched. -/
def addDefaultPosition (env : PaneEnv) (defaultOpenPosition : String)
    (options : OpenOptions) : OpenOptions :=
  match defaultOpenPosition with
  | "Center" =>
    match env.workspaceActivePane with
    | some p => if options.pane.isNone then { options with pane := some p } else options
    | none => options
  | "Split Up" =>
    if options.split.isNone then { options with split := some "up" } else options
  | "Split Down" =>
    if options.split.isNone then { options with split := some "down" } else options
  | "Split Left" =>
    if options.split.isNone then { options with split := some "left" } else options
  | "Split Right" =>
    if options.split.isNone then { options with split := some "right" } else options
  | "Bottom Dock" =>
    match env.bottomDockActivePane with
    | some p => if options.pane.isNone then { options with pane := some p } else options
    | none => options
  | "Left Dock" =>
    match env.leftDockActivePane with
    | some p => if options.pane.isNone then { options with pane := some p } else options
    | none => options
  | "Right Dock" =>
    match env.rightDockActivePane with
    | some p => if options.pane.isNone then { options with pane := some p } else options
    | none => options
  | _ => options

/-- Outcome of awaiting a session's readiness: the session's process
collaborator signals readiness, or the session is closed while the wait is
pending.  Modelled from the spec: `element.initializedPromise` lives in
`src/element.js`, which is not among the sources here; the spec requires a
pending wait whose session is closed meanwhile to abandon the wait and
report "session no longer available" instead of submitting commands. -/
inductive ReadyOutcome
  | ready
  | closed
deriving DecidableEq, Repr

/-- The observable steps of one `runCommands` call, in order. -/
inductive RunEvent
  | openNew (uri : String) (options : OpenOptions)
  | awaitReady (uri : String)
  | submit (uri : String) (command : String)
  | abandoned (message : String)
deriving DecidableEq, Repr

/-- Await the target session's readiness, then submit each command in
order; when the session is closed during the wait, abandon instead. -/
def awaitThenRun (uri : String) (outcome : ReadyOutcome)
    (commands : List String) : List RunEvent :=
  RunEvent.awaitReady uri ::
    match outcome with
    | ReadyOutcome.ready => commands.map (fun c => RunEvent.submit uri c)
    | ReadyOutcome.closed => [RunEvent.abandoned "session no longer available"]

/-- `Terminal.runCommands` (`src/terminal.js` lines 199-217): when the
`terminal.runInActive` config is set, resolve the active terminal; when no
terminal was resolved, open a new one at a fresh uri with the default
placement applied to empty options; await the target session's readiness,
then submit each command of the list in order. -/
def runCommands (runInActive : Bool) (env : PaneEnv) (defaultOpenPosition : String)
    (terminalsSet : List TerminalModel) (freshUri : String)
    (outcome : ReadyOutcome) (commands : List String) : List RunEvent :=
  match (if runInActive then getActiveTerminal terminalsSet else none) with
  | some t => awaitThenRun t.uri outcome commands
  | none =>
    RunEvent.openNew freshUri
        (addDefaultPosition env defaultOpenPosition { pane := none, split := none }) ::
      awaitThenRun freshUri outcome commands

/-- The commands a trace submits, with their target session, in order. -/
def submitted (events : List RunEvent) : List (String × String) :=
  events.filterMap (fun e =>
    match e with
    | RunEvent.submit u c => some (u, c)
    | _ => none)

/-- An externally observable session or clipboard operation performed by
one of the command handlers. -/
inductive TerminalEffect
  | exitSession (uri : String)
  | restartSession (uri : String)
  | clipboardWrite (text : String)
  | pasteToSession (uri : String) (text : String)
deriving DecidableEq, Repr

/-- `Terminal.close` (`src/terminal.js` lines 310-315): exit the active
terminal when there is one; otherwise do nothing. -/
def close (terminalsSet : List TerminalModel) : List TerminalEffect :=
  match getActiveTerminal terminalsSet with
  | some t => [TerminalEffect.exitSession t.uri]
  | none => []

/-- `Terminal.restart` (`src/terminal.js` lines 317-322): restart the active
terminal's pty process when there is one; otherwise do nothing. -/
def restart (terminalsSet : List TerminalModel) : List TerminalEffect :=
  match getActiveTerminal terminalsSet with
  | some t => [TerminalEffect.restartSession t.uri]
  | none => []

/-- `Terminal.copy` (`src/terminal.js` lines 324-329): write the active
terminal's copied text to the clipboard when a terminal is active; otherwise
do nothing.  `copyFromTerminal` lives in `src/model.js` and is passed as a
collaborator. -/
def copy (copyFromTerminal : TerminalModel → String)
    (terminalsSet : List TerminalModel) : List TerminalEffect :=
  match getActiveTerminal terminalsSet with
  | some t => [TerminalEffect.clipboardWrite (copyFromTerminal t)]
  | none => []

/-- `Terminal.paste` (`src/terminal.js` lines 331-336): paste the clipboard
text into the active terminal when there is one; otherwise do nothing. -/
def paste (clipboardText : String) (terminalsSet : List TerminalModel) :
    List TerminalEffect :=
  match getActiveTerminal terminalsSet with
  | some t => [TerminalEffect.pasteToSession t.uri clipboardText]
  | none => []

/-- A concrete copy collaborator used in witnesses: copy the session uri. -/
def copyUri : TerminalModel → String := fun t => t.uri

/-- Live iteration of a JavaScript `Set` in insertion order under an effect
that may delete entries: the next element visited is the first element of
the current list that has not been visited yet (deleted entries are skipped
and insertion order is preserved).  Returns the final set together with the
uris visited, in visit order.  The fuel bounds the number of steps; the
initial set size suffices whenever the effect only removes sessions. -/
def exitAllLoop (exitEffect : String → List TerminalModel → List TerminalModel) :
    Nat → List String → List TerminalModel → List TerminalModel × List String
  | 0, _, ss => (ss, [])
  | fuel + 1, visited, ss =>
    match ss.find? (fun s => !(visited.contains s.uri)) with
    | none => (ss, [])
    | some s =>
      let out := exitAllLoop exitEffect fuel (s.uri :: visited) (exitEffect s.uri ss)
      (out.1, s.uri :: out.2)

/-- `Terminal.exitAllTerminals` (`src/terminal.js` lines 156-160):
`for (const terminal of this.terminalsSet) { terminal.exit() }` — a live
iteration of the registry set itself, calling `exit()` on each visited
session.  The per-session exit effect on the registry set is a parameter,
since `TerminalModel.exit` lives in `src/model.js`. -/
def exitAllTerminals (exitEffect : String → List TerminalModel → List TerminalModel)
    (terminalsSet : List TerminalModel) : List TerminalModel × List String :=
  exitAllLoop exitEffect terminalsSet.length [] terminalsSet

/-- Follows the spec's words, for comparison with `exitAllTerminals`:
iterate over a snapshot (a copy) of the registry set taken at the start and
exit every session in it. -/
def exitAllSnapshotSpec (exitEffect : String → List TerminalModel → List TerminalModel)
    (terminalsSet : List TerminalModel) : List TerminalModel × List String :=
  (terminalsSet.foldl (fun acc s => exitEffect s.uri acc) terminalsSet,
    terminalsSet.map (fun s => s.uri))

/-- Modelled from the spec: a session's `exit()` removes exactly that
session from the registry set ("removal on Session exit"). -/
def exitSelf (u : String) (ss : List TerminalModel) : List TerminalModel :=
  ss.filter (fun s => s.uri != u)

/-- A removal-only exit effect under which exiting the session at "a" also
tears down the session at "b": it distinguishes live iteration of the
registry from iteration over a snapshot. -/
def exitCascade (u : String) (ss : List TerminalModel) : List TerminalModel :=
  if u == "a" then ss.filter (fun s => s.uri != "a" && s.uri != "b")
  else exitSelf u ss

end Terminal

/-- A list is a prefix of another exactly when the latter extends it. -/
theorem isPrefixOf_eq_true_iff (p : List Char) :
    ∀ l : List Char, List.isPrefixOf p l = true ↔ ∃ t, l = p ++ t := by
  induction p with
  | nil => intro l; simp [List.isPrefixOf]
  | cons a as ih =>
    intro l
    cases l with
    | nil => simp [List.isPrefixOf]
    | cons b bs =>
      simp only [List.isPrefixOf, Bool.and_eq_true, beq_iff_eq, ih,
        List.cons_append, List.cons.injEq]
      constructor
      · rintro ⟨rfl, t, rfl⟩
        exact ⟨t, rfl, rfl⟩
      · rintro ⟨t, rfl, rfl⟩
        exact ⟨rfl, t, rfl⟩

/-- Two strings with the same character data are equal. -/
theorem string_data_inj {s t : String} (h : s.data = t.data) : s = t := by
  cases s
  cases t
  exact congrArg String.mk h

/-- `jsStartsWith s p` holds exactly when `s` is `p` followed by some rest. -/
theorem jsStartsWith_eq_true_iff (s p : String) :
    Terminal.jsStartsWith s p = true ↔ ∃ r : String, s = p ++ r := by
  unfold Terminal.jsStartsWith
  rw [isPrefixOf_eq_true_iff]
  constructor
  · rintro ⟨t, ht⟩
    refine ⟨String.mk t, string_data_inj ?_⟩
    rw [String.data_append]
    exact ht
  · rintro ⟨r, rfl⟩
    exact ⟨r.data, String.data_append p r⟩

/-- Counting a conjunction of predicates counts at most as much as either
conjunct alone. -/
theorem countP_and_le {α : Type} (p q : α → Bool) (l : List α) :
    l.countP (fun a => p a && q a) ≤ l.countP p := by
  induction l with
  | nil => simp
  | cons a t ih =>
    simp only [List.countP_cons]
    cases hp : p a <;> cases hq : q a <;> simp [hp, hq] <;> omega

/-- Recomputation does not change the registry membership (the uris). -/
theorem uris_recalculateActive (env : Terminal.FocusEnv) (ss : List TerminalModel) :
    Terminal.uris (Terminal.recalculateActive env ss) = Terminal.uris ss := by
  simp only [Terminal.uris, Terminal.recalculateActive, List.map_map]
  rfl

/-- In a list of sessions with pairwise distinct uris, at most one session
has a uri equal to a given target. -/
theorem countP_target_le_one (o : Option String) (ss : List TerminalModel)
    (h : (Terminal.uris ss).Nodup) :
    ss.countP (fun s => decide (o = some s.uri)) ≤ 1 := by
  induction ss with
  | nil => simp
  | cons a t ih =>
    simp only [Terminal.uris, List.map_cons, List.nodup_cons] at h
    rw [List.countP_cons]
    by_cases ho : o = some a.uri
    · have hz : t.countP (fun s => decide (o = some s.uri)) = 0 := by
        rw [List.countP_eq_zero]
        intro s hs
        simp only [ho, Option.some.injEq, decide_eq_true_eq]
        intro he
        exact h.1 (List.mem_map.mpr ⟨s, hs, he.symm⟩)
      rw [hz, if_pos (show decide (o = some a.uri) = true by simp [ho])]
    · have h2 : (Terminal.uris t).Nodup := h.2
      rw [if_neg (by simpa using ho)]
      rw [Nat.add_zero]
      exact ih h2

/-- After recomputation at most one session is active, provided the registry
uris are pairwise distinct. -/
theorem activeCount_recalculateActive_le_one (env : Terminal.FocusEnv)
    (ss : List TerminalModel) (h : (Terminal.uris ss).Nodup) :
    Terminal.activeCount (Terminal.recalculateActive env ss) ≤ 1 := by
  unfold Terminal.activeCount Terminal.recalculateActive
  rw [List.countP_map]
  exact countP_target_le_one (Terminal.activeTarget env) ss h

/-- Every registry operation preserves the registry invariant. -/
theorem regInv_applyOp (ss : List TerminalModel) (op : Terminal.RegistryOp)
    (h : Terminal.RegInv ss) : Terminal.RegInv (Terminal.applyOp ss op) := by
  obtain ⟨hn, hc⟩ := h
  cases op with
  | register u =>
    by_cases hmem : ss.any (fun s => s.uri == u) = true
    · have happ : Terminal.applyOp ss (Terminal.RegistryOp.register u) = ss := by
        simp only [Terminal.applyOp]
        rw [if_pos hmem]
      rw [happ]
      exact ⟨hn, hc⟩
    · have hnotin : u ∉ Terminal.uris ss := by
        intro hu
        obtain ⟨s, hs, hsu⟩ := List.mem_map.mp hu
        exact hmem (List.any_eq_true.mpr ⟨s, hs, by simp [hsu]⟩)
      have happ : Terminal.applyOp ss (Terminal.RegistryOp.register u) =
          ss ++ [mkTerminalModel u] := by
        simp only [Terminal.applyOp]
        rw [if_neg hmem]
      unfold Terminal.RegInv
      rw [happ]
      constructor
      · show (List.map (fun s => s.uri) (ss ++ [mkTerminalModel u])).Nodup
        rw [List.map_append, List.nodup_append]
        refine ⟨hn, List.nodup_singleton _, ?_⟩
        intro x hx hx'
        simp only [mkTerminalModel, List.map_cons, List.map_nil,
          List.mem_singleton] at hx'
        subst hx'
        exact hnotin hx
      · show (ss ++ [mkTerminalModel u]).countP (fun s => s.isActive) ≤ 1
        rw [List.countP_append]
        have h0 : List.countP (fun s => s.isActive) [mkTerminalModel u] = 0 := by
          simp [mkTerminalModel]
        rw [h0, Nat.add_zero]
        exact hc
  | unregister u =>
    constructor
    · show (List.map (fun s => s.uri) (ss.filter (fun s => s.uri != u))).Nodup
      have hsub : (List.map (fun s => s.uri) (ss.filter (fun s => s.uri != u))).Sublist
          (List.map (fun s => s.uri) ss) :=
        List.Sublist.map (fun s => s.uri) (List.filter_sublist ss)
      exact List.Nodup.sublist hsub hn
    · show (ss.filter (fun s => s.uri != u)).countP (fun s => s.isActive) ≤ 1
      rw [List.countP_filter]
      exact Nat.le_trans (countP_and_le _ _ ss) hc
  | recompute env =>
    exact ⟨by rw [Terminal.applyOp, uris_recalculateActive]; exact hn,
      activeCount_recalculateActive_le_one env ss hn⟩

/-- The registry invariant holds after any sequence of operations run from
the empty registry. -/
theorem regInv_runOps (ops : List Terminal.RegistryOp) :
    Terminal.RegInv (Terminal.runOps ops) := by
  have general : ∀ (l : List Terminal.RegistryOp) (ss : List TerminalModel),
      Terminal.RegInv ss → Terminal.RegInv (l.foldl Terminal.applyOp ss) := by
    intro l
    induction l with
    | nil => intro ss h; exact h
    | cons op rest ih =>
      intro ss h
      exact ih _ (regInv_applyOp ss op h)
  exact general ops [] ⟨by simp [Terminal.uris], by simp [Terminal.activeCount]⟩

/-- When at most one session is active, `getActiveTerminal` finds exactly
the active one. -/
theorem getActiveTerminal_eq_some (ss : List TerminalModel)
    (hc : Terminal.activeCount ss ≤ 1) (t : TerminalModel)
    (ht : t ∈ ss) (ha : t.isActive = true) :
    Terminal.getActiveTerminal ss = some t := by
  induction ss with
  | nil => cases ht
  | cons a rest ih =>
    unfold Terminal.getActiveTerminal
    cases haa : a.isActive with
    | true =>
      rw [List.find?_cons_of_pos _ (by simp [haa])]
      rcases List.mem_cons.mp ht with rfl | hrest
      · rfl
      · exfalso
        have hpos : 0 < rest.countP (fun s => s.isActive) :=
          List.countP_pos_iff.mpr ⟨t, hrest, by simp [ha]⟩
        have := hc
        simp only [Terminal.activeCount, List.countP_cons, haa, if_true] at this
        omega
    | false =>
      rw [List.find?_cons_of_neg _ (by simp [haa])]
      have hrest : t ∈ rest := by
        rcases List.mem_cons.mp ht with rfl | hr
        · rw [ha] at haa; cases haa
        · exact hr
      have hc' : Terminal.activeCount rest ≤ 1 := by
        have := hc
        simp only [Terminal.activeCount, List.countP_cons, haa, if_false] at this ⊢
        omega
      exact ih hc' hrest

/-- When no session is active, `getActiveTerminal` finds nothing. -/
theorem getActiveTerminal_eq_none (ss : List TerminalModel)
    (h : ∀ t ∈ ss, t.isActive = false) :
    Terminal.getActiveTerminal ss = none := by
  unfold Terminal.getActiveTerminal
  rw [List.find?_eq_none]
  intro x hx
  simp [h x hx]

/-- C1: after every sequence of register/unregister/recompute operations at
most one session in the registry is flagged active, and `getActiveTerminal`
returns the unique active session when one exists and nothing when none
does. -/
theorem C1_at_most_one_active (ops : List Terminal.RegistryOp) :
    Terminal.activeCount (Terminal.runOps ops) ≤ 1 ∧
    (∀ t, t ∈ Terminal.runOps ops → t.isActive = true →
      Terminal.getActiveTerminal (Terminal.runOps ops) = some t) ∧
    ((∀ t, t ∈ Terminal.runOps ops → t.isActive = false) →
      Terminal.getActiveTerminal (Terminal.runOps ops) = none) := by
  obtain ⟨hn, hc⟩ := regInv_runOps ops
  exact ⟨hc, fun t ht ha => getActiveTerminal_eq_some _ hc t ht ha,
    fun h => getActiveTerminal_eq_none _ h⟩

/-- C1 witness: registering "a" and recomputing with the center focused on
it leaves exactly the session at "a" active, and the lookup returns it. -/
theorem C1_at_most_one_active_witness :
    Terminal.getActiveTerminal (Terminal.runOps Terminal.opsCenterA) =
      some { uri := "a", isActive := true } :=
  (C1_at_most_one_active Terminal.opsCenterA).2.1 { uri := "a", isActive := true }
    (by decide) (by decide)

/-- A computed active target marks exactly the session at that uri active. -/
theorem recalc_marks_target (env : Terminal.FocusEnv) (ss : List TerminalModel)
    (u : String) (h : Terminal.activeTarget env = some u) :
    ∀ s ∈ Terminal.recalculateActive env ss, (s.isActive = true ↔ s.uri = u) := by
  intro s hs
  simp only [Terminal.recalculateActive, List.mem_map] at hs
  obtain ⟨s₀, _, rfl⟩ := hs
  simp [h, eq_comm]

/-- C2: with containers enumerated in the fixed priority order — center
workspace, then left dock, then right dock, then bottom dock — the
recomputation marks active exactly the session focused in the
highest-priority container hosting a focused terminal; in particular a
focused center pane beats a focused bottom dock. -/
theorem C2_priority_order (env : Terminal.FocusEnv) (ss : List TerminalModel)
    (u : String) :
    (Terminal.focusedTerminal env.center = some u →
      ∀ s ∈ Terminal.recalculateActive env ss, (s.isActive = true ↔ s.uri = u)) ∧
    (Terminal.focusedTerminal env.center = none →
      Terminal.focusedTerminal env.leftDock = some u →
      ∀ s ∈ Terminal.recalculateActive env ss, (s.isActive = true ↔ s.uri = u)) ∧
    (Terminal.focusedTerminal env.center = none →
      Terminal.focusedTerminal env.leftDock = none →
      Terminal.focusedTerminal env.rightDock = some u →
      ∀ s ∈ Terminal.recalculateActive env ss, (s.isActive = true ↔ s.uri = u)) ∧
    (Terminal.focusedTerminal env.center = none →
      Terminal.focusedTerminal env.leftDock = none →
      Terminal.focusedTerminal env.rightDock = none →
      Terminal.focusedTerminal env.bottomDock = some u →
      ∀ s ∈ Terminal.recalculateActive env ss, (s.isActive = true ↔ s.uri = u)) := by
  refine ⟨fun h1 => ?_, fun h1 h2 => ?_, fun h1 h2 h3 => ?_, fun h1 h2 h3 h4 => ?_⟩ <;>
    apply recalc_marks_target <;>
    simp [Terminal.activeTarget, Terminal.containersInPriority, List.findSome?_cons, *]

/-- C2 witness: center workspace focused on "c" and bottom dock focused on
"b" simultaneously: "c" is marked active and "b" inactive. -/
theorem C2_priority_order_witness :
    Terminal.recalculateActive Terminal.envCenterBottom
        [mkTerminalModel "c", mkTerminalModel "b"] =
      [{ uri := "c", isActive := true }, { uri := "b", isActive := false }] ∧
    (({ uri := "b", isActive := false } : TerminalModel).isActive = true ↔
      ({ uri := "b", isActive := false } : TerminalModel).uri = "c") :=
  ⟨by decide,
    (C2_priority_order Terminal.envCenterBottom
        [mkTerminalModel "c", mkTerminalModel "b"] "c").1 (by decide)
      { uri := "b", isActive := false } (by decide)⟩

/-- C7: for every serialized address, restore with the allow-relaunch policy
disabled returns empty and creates no Session, and restore with the policy
enabled returns a new Session bound to exactly the previously serialized
address. -/
theorem C7_restore_policy (uri : String) :
    Terminal.deserializeTerminalModel false uri = none ∧
    Terminal.deserializeTerminalModel true uri = some (mkTerminalModel uri) ∧
    (Terminal.deserializeTerminalModel true uri).map (fun s => s.uri) = some uri := by
  refine ⟨rfl, rfl, rfl⟩

/-- C8: every generated address is the scheme prefix followed by the freshly
generated token and a trailing separator, generation is injective in the
token, and any number of calls with pairwise distinct random tokens (the
overwhelmingly probable event for 128-bit-class randomness) produce pairwise
distinct addresses. -/
theorem C8_generateNewUri_unique :
    (∀ t, Terminal.generateNewUri t = TERMINAL_BASE_URI ++ t ++ "/") ∧
    (∀ t, Terminal.jsStartsWith (Terminal.generateNewUri t) TERMINAL_BASE_URI = true) ∧
    (∀ t₁ t₂, Terminal.generateNewUri t₁ = Terminal.generateNewUri t₂ → t₁ = t₂) ∧
    (∀ tokens : List String, tokens.Nodup →
      (tokens.map Terminal.generateNewUri).Nodup) := by
  have hinj : ∀ t₁ t₂, Terminal.generateNewUri t₁ = Terminal.generateNewUri t₂ → t₁ = t₂ := by
    intro t₁ t₂ h
    apply string_data_inj
    have hd := congrArg String.data h
    simp only [Terminal.generateNewUri, String.data_append] at hd
    rw [List.append_assoc, List.append_assoc] at hd
    exact List.append_cancel_right (List.append_cancel_left hd)
  refine ⟨fun t => rfl, ?_, hinj, ?_⟩
  · intro t
    rw [jsStartsWith_eq_true_iff]
    exact ⟨t ++ "/", by simp [Terminal.generateNewUri, String.append_assoc]⟩
  · intro tokens hn
    have hInjF : Function.Injective Terminal.generateNewUri := by
      intro a b hab
      exact hinj a b hab
    exact hn.map hInjF

/-- C8 witness: three concrete distinct tokens yield three distinct
addresses. -/
theorem C8_generateNewUri_unique_witness :
    (["a", "b", "c"] : List String).Nodup ∧
    ((["a", "b", "c"] : List String).map Terminal.generateNewUri).Nodup :=
  ⟨by decide, C8_generateNewUri_unique.2.2.2 ["a", "b", "c"] (by decide)⟩

/-- C9: the workspace opener recognizes a uri string exactly when it begins
with the scheme prefix; on every such string it yields a new terminal item
bound to that uri, and on every other string it yields nothing. -/
theorem C9_opener_recognizes_scheme (uri : String) :
    (Terminal.addOpener uri = some (mkTerminalModel uri) ↔
      ∃ rest, uri = TERMINAL_BASE_URI ++ rest) ∧
    (Terminal.addOpener uri = none ↔ ¬∃ rest, uri = TERMINAL_BASE_URI ++ rest) := by
  unfold Terminal.addOpener
  rw [← jsStartsWith_eq_true_iff uri TERMINAL_BASE_URI]
  cases h : Terminal.jsStartsWith uri TERMINAL_BASE_URI <;> simp [h]

/-- Live iteration with the self-removal exit effect visits and removes the
sessions in registry order until the registry is empty, provided the uris
are pairwise distinct. -/
theorem exitAllLoop_self_removal (ss : List TerminalModel) :
    ∀ (visited : List String) (fuel : Nat), (Terminal.uris ss).Nodup →
      (∀ s ∈ ss, visited.contains s.uri = false) → ss.length ≤ fuel →
      Terminal.exitAllLoop Terminal.exitSelf fuel visited ss = ([], Terminal.uris ss) := by
  induction ss with
  | nil =>
    intro visited fuel _ _ _
    cases fuel with
    | zero => rfl
    | succ f => simp [Terminal.exitAllLoop, Terminal.uris]
  | cons a rest ih =>
    intro visited fuel hn hv hf
    cases fuel with
    | zero => exact absurd hf (by simp)
    | succ f =>
      have hfind : (a :: rest).find? (fun s => !(visited.contains s.uri)) = some a :=
        List.find?_cons_of_pos _
          (by simpa using hv a (List.mem_cons_self a rest))
      have hnodup : a.uri ∉ List.map (fun s => s.uri) rest ∧
          (Terminal.uris rest).Nodup := by
        simpa [Terminal.uris, List.nodup_cons] using hn
      have hexit : Terminal.exitSelf a.uri (a :: rest) = rest := by
        unfold Terminal.exitSelf
        rw [List.filter_cons]
        simp only [bne_self_eq_false, Bool.false_eq_true, if_false]
        apply List.filter_eq_self.mpr
        intro s hs
        simp only [bne_iff_ne, ne_eq]
        intro he
        exact hnodup.1 (List.mem_map.mpr ⟨s, hs, he⟩)
      have hv2 : ∀ s ∈ rest, (a.uri :: visited).contains s.uri = false := by
        intro s hs
        have hsv : s.uri ∉ visited := by
          simpa using hv s (List.mem_cons_of_mem a hs)
        have hne : s.uri ≠ a.uri := fun he => hnodup.1 (List.mem_map.mpr ⟨s, hs, he⟩)
        simp [List.contains_cons, hne, hsv]
      have hf2 : rest.length ≤ f := by simpa using hf
      simp only [Terminal.exitAllLoop, hfind, hexit, ih (a.uri :: visited) f hnodup.2 hv2 hf2,
        Terminal.uris, List.map_cons]

/-- C3 counterexample: under a removal-only exit effect where exiting the
session at "a" also removes the session at "b", the code's live iteration of
the registry set never exits "b", whereas iterating over a snapshot of the
set exits both — so `exitAllTerminals` does not iterate over a copy of the
registry set. -/
theorem C3_not_snapshot_counterexample :
    (Terminal.exitAllTerminals Terminal.exitCascade
        [mkTerminalModel "a", mkTerminalModel "b"]).2 = ["a"] ∧
    (Terminal.exitAllSnapshotSpec Terminal.exitCascade
        [mkTerminalModel "a", mkTerminalModel "b"]).2 = ["a", "b"] ∧
    Terminal.exitAllTerminals Terminal.exitCascade
        [mkTerminalModel "a", mkTerminalModel "b"] ≠
      Terminal.exitAllSnapshotSpec Terminal.exitCascade
        [mkTerminalModel "a", mkTerminalModel "b"] := by
  refine ⟨by decide, by decide, by decide⟩

/-- C3 amended: `exitAllTerminals` iterates the live registry set, not a
copy; since each session's exit removes exactly that session and JavaScript
set iteration skips removed entries while preserving order, the iteration
still exits every session in registry order, tolerates the concurrent
self-removals without throwing, and leaves the registry empty — including
the trivial zero-session registry. -/
theorem C3_exitAll_self_removal (ss : List TerminalModel)
    (h : (Terminal.uris ss).Nodup) :
    Terminal.exitAllTerminals Terminal.exitSelf ss = ([], Terminal.uris ss) := by
  unfold Terminal.exitAllTerminals
  exact exitAllLoop_self_removal ss [] ss.length h (fun s _ => rfl) (Nat.le_refl _)

/-- C3 witness: a two-session registry is fully exited, in order, and left
empty. -/
theorem C3_exitAll_self_removal_witness :
    (Terminal.uris [mkTerminalModel "a", mkTerminalModel "b"]).Nodup ∧
    Terminal.exitAllTerminals Terminal.exitSelf
        [mkTerminalModel "a", mkTerminalModel "b"] =
      ([], Terminal.uris [mkTerminalModel "a", mkTerminalModel "b"]) :=
  ⟨by decide,
    C3_exitAll_self_removal [mkTerminalModel "a", mkTerminalModel "b"] (by decide)⟩

/-- C4: with the run-in-active policy enabled and an active session present,
`runCommands` targets that session; otherwise it opens a new session at a
fresh uri with the default placement.  Either way it awaits the target's
readiness first and then submits exactly the given commands, in order, to
that target. -/
theorem C4_runCommands_target_and_order (runInActive : Bool)
    (env : Terminal.PaneEnv) (defaultOpenPosition : String)
    (ss : List TerminalModel) (freshUri : String) (commands : List String) :
    (∀ t, runInActive = true → Terminal.getActiveTerminal ss = some t →
      Terminal.runCommands runInActive env defaultOpenPosition ss freshUri
          Terminal.ReadyOutcome.ready commands =
        Terminal.RunEvent.awaitReady t.uri ::
          commands.map (fun c => Terminal.RunEvent.submit t.uri c)) ∧
    (runInActive = false ∨ Terminal.getActiveTerminal ss = none →
      Terminal.runCommands runInActive env defaultOpenPosition ss freshUri
          Terminal.ReadyOutcome.ready commands =
        Terminal.RunEvent.openNew freshUri
            (Terminal.addDefaultPosition env defaultOpenPosition
              { pane := none, split := none }) ::
          Terminal.RunEvent.awaitReady freshUri ::
            commands.map (fun c => Terminal.RunEvent.submit freshUri c)) := by
  constructor
  · intro t h1 h2
    simp [Terminal.runCommands, h1, h2, Terminal.awaitThenRun]
  · intro h
    rcases h with h | h
    · simp [Terminal.runCommands, h, Terminal.awaitThenRun]
    · cases hr : runInActive <;>
        simp [Terminal.runCommands, hr, h, Terminal.awaitThenRun]

/-- C4 witness: with the policy on and session "a" active, a single command
is submitted to "a" after the await, with nothing lost. -/
theorem C4_runCommands_witness :
    Terminal.getActiveTerminal [({ uri := "a", isActive := true } : TerminalModel)] =
      some { uri := "a", isActive := true } ∧
    Terminal.runCommands true Terminal.paneEnvEmpty "Center"
        [{ uri := "a", isActive := true }] "terminal://fresh/"
        Terminal.ReadyOutcome.ready ["echo hi"] =
      [Terminal.RunEvent.awaitReady "a", Terminal.RunEvent.submit "a" "echo hi"] :=
  ⟨by decide,
    (C4_runCommands_target_and_order true Terminal.paneEnvEmpty "Center"
        [{ uri := "a", isActive := true }] "terminal://fresh/" ["echo hi"]).1
      { uri := "a", isActive := true } rfl (by decide)⟩

/-- C5: when the target session is closed while the `runCommands` call is
suspended on its readiness, the call submits no command at all and instead
resolves as abandoned with "session no longer available". -/
theorem C5_closed_session_abandons (runInActive : Bool)
    (env : Terminal.PaneEnv) (defaultOpenPosition : String)
    (ss : List TerminalModel) (freshUri : String) (commands : List String) :
    Terminal.submitted (Terminal.runCommands runInActive env defaultOpenPosition
        ss freshUri Terminal.ReadyOutcome.closed commands) = [] ∧
    Terminal.RunEvent.abandoned "session no longer available" ∈
      Terminal.runCommands runInActive env defaultOpenPosition ss freshUri
        Terminal.ReadyOutcome.closed commands := by
  cases hsel : (if runInActive then Terminal.getActiveTerminal ss else none) with
  | some t =>
    constructor <;>
      simp [Terminal.runCommands, hsel, Terminal.awaitThenRun, Terminal.submitted]
  | none =>
    constructor <;>
      simp [Terminal.runCommands, hsel, Terminal.awaitThenRun, Terminal.submitted]

/-- C6: when no session is active, `close`, `restart`, `copy` and `paste`
are silent no-ops: none of them performs a session operation or a clipboard
write. -/
theorem C6_no_active_noop (ss : List TerminalModel)
    (copyFromTerminal : TerminalModel → String) (clipboardText : String)
    (h : Terminal.getActiveTerminal ss = none) :
    Terminal.close ss = [] ∧ Terminal.restart ss = [] ∧
    Terminal.copy copyFromTerminal ss = [] ∧
    Terminal.paste clipboardText ss = [] := by
  simp [Terminal.close, Terminal.restart, Terminal.copy, Terminal.paste, h]

/-- C6 witness: a registry holding one inactive session has no active
session, and all four handlers produce no effect on it. -/
theorem C6_no_active_noop_witness :
    Terminal.getActiveTerminal [mkTerminalModel "a"] = none ∧
    (Terminal.close [mkTerminalModel "a"] = [] ∧
      Terminal.restart [mkTerminalModel "a"] = [] ∧
      Terminal.copy Terminal.copyUri [mkTerminalModel "a"] = [] ∧
      Terminal.paste "text" [mkTerminalModel "a"] = []) :=
  ⟨by decide, C6_no_active_noop [mkTerminalModel "a"] Terminal.copyUri "text" (by decide)⟩

/-- C10: `addDefaultPosition` never overwrites a caller-supplied `pane` or
`split` key; an unrecognized configured position leaves the options
untouched, and so does a designated container without an active pane. -/
theorem C10_addDefaultPosition_preserves (env : Terminal.PaneEnv)
    (position : String) (options : Terminal.OpenOptions) :
    (∀ p, options.pane = some p →
      (Terminal.addDefaultPosition env position options).pane = some p) ∧
    (∀ d, options.split = some d →
      (Terminal.addDefaultPosition env position options).split = some d) ∧
    (position ∉ (["Center", "Split Up", "Split Down", "Split Left", "Split Right",
        "Bottom Dock", "Left Dock", "Right Dock"] : List String) →
      Terminal.addDefaultPosition env position options = options) ∧
    (position = "Center" → env.workspaceActivePane = none →
      Terminal.addDefaultPosition env position options = options) ∧
    (position = "Bottom Dock" → env.bottomDockActivePane = none →
      Terminal.addDefaultPosition env position options = options) ∧
    (position = "Left Dock" → env.leftDockActivePane = none →
      Terminal.addDefaultPosition env position options = options) ∧
    (position = "Right Dock" → env.rightDockActivePane = none →
      Terminal.addDefaultPosition env position options = options) := by
  refine ⟨?_, ?_, ?_, ?_, ?_, ?_, ?_⟩
  · intro p hp
    unfold Terminal.addDefaultPosition
    repeat' split
    all_goals simp_all
  · intro d hd
    unfold Terminal.addDefaultPosition
    repeat' split
    all_goals simp_all
  · intro hpos
    simp only [List.mem_cons, List.not_mem_nil, or_false, not_or] at hpos
    unfold Terminal.addDefaultPosition
    split <;> simp_all
  · intro h1 h2
    subst h1
    simp [Terminal.addDefaultPosition, h2]
  · intro h1 h2
    subst h1
    simp [Terminal.addDefaultPosition, h2]
  · intro h1 h2
    subst h1
    simp [Terminal.addDefaultPosition, h2]
  · intro h1 h2
    subst h1
    simp [Terminal.addDefaultPosition, h2]

/-- C10 witness: with a caller-supplied pane and split and a configured
"Center" position whose workspace has an active pane, the options survive
unchanged. -/
theorem C10_addDefaultPosition_preserves_witness :
    ({ pane := some "p0", split := some "up" } : Terminal.OpenOptions).pane = some "p0" ∧
    (Terminal.addDefaultPosition Terminal.paneEnvEmpty "Some Unknown Position"
        { pane := some "p0", split := some "up" }).pane = some "p0" ∧
    Terminal.addDefaultPosition Terminal.paneEnvEmpty "Center"
        { pane := some "p0", split := some "up" } =
      { pane := some "p0", split := some "up" } :=
  ⟨rfl,
    (C10_addDefaultPosition_preserves Terminal.paneEnvEmpty "Some Unknown Position"
        { pane := some "p0", split := some "up" }).1 "p0" rfl,
    (C10_addDefaultPosition_preserves Terminal.paneEnvEmpty "Center"
        { pane := some "p0", split := some "up" }).2.2.2.1 rfl rfl⟩
